import Mathlib

/-
Shallow embedding of the YaCoAP CoAP codec (src/coap.c).

Conventions of the embedding:

* Byte buffers are `List Nat`; a read of a `uint8_t` reduces the stored
  value mod 256 (on genuine byte buffers this is the identity).
* Fallible C functions returning `int` error codes become
  `Except PErr _`; `Except.ok` corresponds to `COAP_SUCCESS` (0) and
  `Except.error (PErr.code e)` to returning the error code `e`.
  `PErr.oob` marks a memory access outside the buffer, an event the C
  program would perform silently; the embedding surfaces it so that
  bounded-access claims are meaningful.
* Pointer/length views (`coap_buffer_t`) are materialized as the lists of
  bytes they denote; a NULL payload pointer is `Option.none`.
* The file coap.h of this repository is not under src/; the packet,
  option, endpoint and constant declarations that live there are
  modelled from the spec (sections 3, 4 and 6), as marked below.
* The C parses/serializes the 4-byte header through a union over
  compiler-dependent bit-fields (src/coap.c lines 10-19).  The spec
  (section 4.1) fixes the portable layout: byte 0 is [ver:2][t:2][tkl:4]
  (big-endian bit positions), byte 1 the code, bytes 2-3 the message id
  in network byte order.  The embedding uses that layout; the builder
  (src/coap.c lines 294-299) writes through the same union, so parse and
  build agree on it exactly as in the C.
-/

namespace YaCoAP

/-- Error kinds of the codec (the COAP_ERR_* values of the spec, section 7;
their enum lives in the missing coap.h). -/
inductive CoapErr where
  | HEADER_TOO_SHORT
  | VERSION_NOT_1
  | TOKEN_TOO_SHORT
  | OPTION_TOO_SHORT_FOR_HEADER
  | OPTION_DELTA_INVALID
  | OPTION_LEN_INVALID
  | OPTION_TOO_BIG
  | OPTION_OVERRUNS_PACKET
  | BUFFER_TOO_SMALL
  | UNSUPPORTED
  deriving DecidableEq

/-- Result of a parse or build step: a typed error code, or an
out-of-bounds buffer access (which the C would perform silently and the
embedding surfaces as a distinct outcome). -/
inductive PErr where
  | code (e : CoapErr)
  | oob
  deriving DecidableEq

instance exceptDecEq {ε α : Type} [DecidableEq ε] [DecidableEq α] :
    DecidableEq (Except ε α) := fun a b =>
  match a, b with
  | .ok x, .ok y =>
    if h : x = y then .isTrue (by rw [h])
    else .isFalse (by intro hc; injection hc; exact h (by assumption))
  | .error x, .error y =>
    if h : x = y then .isTrue (by rw [h])
    else .isFalse (by intro hc; injection hc; exact h (by assumption))
  | .ok _, .error _ => .isFalse (by intro hc; exact Except.noConfusion hc)
  | .error _, .ok _ => .isFalse (by intro hc; exact Except.noConfusion hc)

/-- Parsed header fields (coap_header_t of the missing coap.h; field set
and widths from the spec, section 3: ver 2 bits, t 2 bits, tkl 4 bits,
code 8 bits, id 16 bits). -/
structure coap_header_t where
  ver : Nat
  t : Nat
  tkl : Nat
  code : Nat
  id : Nat
  deriving DecidableEq

/-- One option: its absolute number and its value bytes (coap_option_t of
the missing coap.h; the number field coap_option_num_t is modelled as an
unbounded Nat, per the spec, section 3: unsigned, typically up to
65535+269). -/
structure coap_option_t where
  num : Nat
  buf : List Nat
  deriving DecidableEq

/-- A parsed packet: header, token bytes, ordered options, payload view
(none models a NULL payload pointer).  numopts of the C struct is
`opts.length`. -/
structure coap_packet_t where
  hdr : coap_header_t
  tok : List Nat
  opts : List coap_option_t
  payload : Option (List Nat)
  deriving DecidableEq

/-- Modelled from the spec: MAXOPT, the fixed option-array capacity, is
defined in the missing coap.h; the spec (section 3) gives 16 as the
implementation constant. -/
def MAXOPT : Nat := 16

/-- Modelled from the spec (section 6): option number 11 is URI-Path. -/
def COAP_OPTION_URI_PATH : Nat := 11

/-- Modelled from the spec (section 6): option number 12 is
Content-Format. -/
def COAP_OPTION_CONTENT_FORMAT : Nat := 12

/-- Modelled from the spec (section 3): message type Acknowledgement is
the third of Confirmable, Non-confirmable, Acknowledgement, Reset. -/
def COAP_TYPE_ACK : Nat := 2

/-- Modelled from the spec (section 6): response code 4.04 Not Found is
(4 shifted left by 5) + 4 = 0x84. -/
def COAP_RSPCODE_NOT_FOUND : Nat := 0x84

/-- Modelled from the spec (section 4.6): the content-type sentinel NONE
(its numeric value lives in the missing coap.h; no claim depends on it). -/
def COAP_CONTENTTYPE_NONE : Nat := 0xFFFF

/-- Materialize the byte view [start, start+len) of a buffer; reading
outside the buffer is an out-of-bounds access. -/
def readSlice (bs : List Nat) (start len : Nat) : Except PErr (List Nat) :=
  if start + len ≤ bs.length then .ok ((bs.drop start).take len)
  else .error .oob

/-- The payload decision after the option loop (src/coap.c lines 186-193):
if at least one byte follows the cursor and the byte at the cursor is the
0xFF marker, the payload is everything after the marker; otherwise the
payload view is NULL with length 0. -/
def payload_of : List Nat → Option (List Nat)
  | r0 :: r1 :: rest => if r0 % 256 = 255 then some (r1 :: rest) else none
  | _ => none

/-- _parse_header (src/coap.c lines 58-75): needs 4 bytes, decodes the
fixed header, rejects version other than 1.  Byte layout per the spec,
section 4.1 (see the header comment of this file). -/
def _parse_header (bs : List Nat) : Except PErr coap_header_t :=
  if bs.length < 4 then .error (.code .HEADER_TOO_SHORT)
  else
    match bs[0]?, bs[1]?, bs[2]?, bs[3]? with
    | some a0, some a1, some a2, some a3 =>
      if (a0 % 256) / 64 ≠ 1 then .error (.code .VERSION_NOT_1)
      else .ok { ver := (a0 % 256) / 64, t := ((a0 % 256) / 16) % 4,
                 tkl := (a0 % 256) % 16, code := a1 % 256,
                 id := (a2 % 256) * 256 + a3 % 256 }
    | _, _, _, _ => .error .oob

/-- _parse_token (src/coap.c lines 77-94): validates the declared token
length against the buffer (and the 8-byte bound) and records the token
byte view; a zero token length yields the NULL view, here []. -/
def _parse_token (hdr : coap_header_t) (bs : List Nat) :
    Except PErr (List Nat) :=
  if 4 + hdr.tkl > bs.length ∨ 8 < hdr.tkl then .error (.code .TOKEN_TOO_SHORT)
  else if hdr.tkl = 0 then .ok []
  else readSlice bs 4 hdr.tkl

/-- One nibble of an option header together with its extension bytes (the
two symmetric branch chains of _parse_option, src/coap.c lines 110-147).
`off` is the index (from the start of the option) of the byte the C
cursor p points at; the C headlen always equals off+1.  Nibble 13 reads
one extension byte (value byte+13); nibble 14 reads two (big-endian
value +269, stored into a uint16_t, hence mod 65536); nibble 15 yields
`e15` (delta-invalid for the high nibble, len-invalid for the low one).
Returns the decoded value and the new cursor offset. -/
def _nibble_ext (bs : List Nat) (nib off : Nat) (e15 : CoapErr) :
    Except PErr (Nat × Nat) :=
  if nib = 13 then
    if bs.length < off + 2 then .error (.code .OPTION_TOO_SHORT_FOR_HEADER)
    else
      match bs[off + 1]? with
      | some b => .ok (b % 256 + 13, off + 1)
      | none => .error .oob
  else if nib = 14 then
    if bs.length < off + 3 then .error (.code .OPTION_TOO_SHORT_FOR_HEADER)
    else
      match bs[off + 1]?, bs[off + 2]? with
      | some b1, some b2 =>
        .ok (((b1 % 256) * 256 + b2 % 256 + 269) % 65536, off + 2)
      | _, _ => .error .oob
  else if nib = 15 then .error (.code e15)
  else .ok (nib, off)

/-- _parse_option (src/coap.c lines 96-161): decode one option at the
start of `bs` (the buffer suffix the C cursor points at), given the
running delta accumulator.  Returns the option, the updated accumulator
(a uint16_t, hence mod 65536) and the number of bytes consumed.  The
option number is delta + running_delta computed in int arithmetic and
stored into the unbounded coap_option_num_t, so no reduction. -/
def _parse_option (running_delta : Nat) (bs : List Nat) :
    Except PErr (coap_option_t × Nat × Nat) :=
  if bs.length < 1 then .error (.code .OPTION_TOO_SHORT_FOR_HEADER)
  else
    match bs[0]? with
    | none => .error .oob
    | some b0 =>
      match _nibble_ext bs ((b0 % 256) / 16) 0 .OPTION_DELTA_INVALID with
      | .error e => .error e
      | .ok (delta, off1) =>
        match _nibble_ext bs ((b0 % 256) % 16) off1 .OPTION_LEN_INVALID with
        | .error e => .error e
        | .ok (len, off2) =>
          if off2 + 1 + len > bs.length then .error (.code .OPTION_TOO_BIG)
          else
            match readSlice bs (off2 + 1) len with
            | .error e => .error e
            | .ok v =>
              .ok ({ num := delta + running_delta, buf := v },
                   (running_delta + delta) % 65536, off2 + 1 + len)

/-- The option while-loop of _parse_options_payload (src/coap.c lines
177-183): while budget remains (budget = MAXOPT - optionIndex), the
cursor is before the end, and the current byte is not the 0xFF payload
marker, decode one option and advance.  Returns the decoded options and
the remaining bytes at the final cursor. -/
def parse_opts_loop (budget rd : Nat) (bs : List Nat) :
    Except PErr (List coap_option_t × List Nat) :=
  match budget, bs with
  | 0, bs => .ok ([], bs)
  | _ + 1, [] => .ok ([], [])
  | budget + 1, b :: rest =>
    if b % 256 = 255 then .ok ([], b :: rest)
    else
      match _parse_option rd (b :: rest) with
      | .error e => .error e
      | .ok (o, rd2, c) =>
        match parse_opts_loop budget rd2 ((b :: rest).drop c) with
        | .error e => .error e
        | .ok (os, rem) => .ok (o :: os, rem)

/-- _parse_options_payload (src/coap.c lines 164-195): position the
cursor after header and token (error if already past the end), run the
option loop with the MAXOPT bound and a running delta starting at 0,
then decide the payload view. -/
def _parse_options_payload (hdr : coap_header_t) (bs : List Nat) :
    Except PErr (List coap_option_t × Option (List Nat)) :=
  if 4 + hdr.tkl > bs.length then .error (.code .OPTION_OVERRUNS_PACKET)
  else
    match parse_opts_loop MAXOPT 0 (bs.drop (4 + hdr.tkl)) with
    | .error e => .error e
    | .ok (os, rem) => .ok (os, payload_of rem)

/-- coap_parse (src/coap.c lines 268-286): header, then token, then
options and payload. -/
def coap_parse (bs : List Nat) : Except PErr coap_packet_t :=
  match _parse_header bs with
  | .error e => .error e
  | .ok hdr =>
    match _parse_token hdr bs with
    | .error e => .error e
    | .ok tok =>
      match _parse_options_payload hdr bs with
      | .error e => .error e
      | .ok (os, pl) => .ok { hdr := hdr, tok := tok, opts := os, payload := pl }

/-- _find_options (src/coap.c lines 201-225): return the contiguous run
of options with the given number (first match plus the following equal
numbers); scanning stops at the first strictly greater number, and at
the first non-equal number once a match was seen.  The C returns a
pointer to the first option of the run plus a count; the embedding
returns the run itself ([] for the NULL pointer / count 0). -/
def _find_options (num : Nat) : List coap_option_t → List coap_option_t
  | [] => []
  | o :: rest =>
    if o.num = num then o :: rest.takeWhile (fun x => x.num == num)
    else if num < o.num then []
    else _find_options num rest

/-- _option_nibble (src/coap.c lines 228-239): classify a delta or
length value into its header nibble.  For values above 0xFFFF+269 the C
writes nothing through the out-pointer, so the caller's initial value
(`nibble`, always 0 at the call sites) is kept. -/
def _option_nibble (value nibble : Nat) : Nat :=
  if value < 13 then value % 256
  else if value ≤ 0xFF + 13 then 13
  else if value ≤ 0xFFFF + 269 then 14
  else nibble

/-- Append one byte to the output if the buffer of capacity `cap` still
has room; writing past the capacity is an out-of-bounds access (the C
performs the store unconditionally). -/
def wrByte (cap : Nat) (out : List Nat) (b : Nat) : Except PErr (List Nat) :=
  if out.length < cap then .ok (out ++ [b % 256]) else .error .oob

/-- memcpy into the output buffer, one capacity-checked byte at a time. -/
def wrBytes (cap : Nat) (out : List Nat) : List Nat → Except PErr (List Nat)
  | [] => .ok out
  | b :: rest =>
    match wrByte cap out b with
    | .error e => .error e
    | .ok out2 => wrBytes cap out2 rest

/-- The option-emission loop of coap_build (src/coap.c lines 310-340).
Before each option the C checks (p - buf) > *buflen; it then writes the
header byte, the delta extension bytes, the length extension bytes (note
the high length byte is len >> 8, not (len-269) >> 8) and the value
bytes without further checks.  optDelta is computed in uint32_t
arithmetic; the running delta is a uint16_t assigned from the option
number. -/
def build_opts_loop (cap : Nat) (out : List Nat) (rd : Nat) :
    List coap_option_t → Except PErr (List Nat)
  | [] => .ok out
  | o :: rest =>
    if cap < out.length then .error (.code .BUFFER_TOO_SMALL)
    else
      let optDelta := (o.num + 4294967296 - rd) % 4294967296
      let dn := _option_nibble optDelta 0
      let ln := _option_nibble o.buf.length 0
      match wrByte cap out ((dn * 16 + ln) % 256) with
      | .error e => .error e
      | .ok out1 =>
        match
          (if dn = 13 then wrByte cap out1 ((optDelta - 13) % 256)
           else if dn = 14 then
             match wrByte cap out1 (((optDelta - 269) / 256) % 256) with
             | .error e => .error e
             | .ok outa => wrByte cap outa ((optDelta - 269) % 256)
           else .ok out1) with
        | .error e => .error e
        | .ok out2 =>
          match
            (if ln = 13 then wrByte cap out2 ((o.buf.length - 13) % 256)
             else if ln = 14 then
               match wrByte cap out2 ((o.buf.length / 256) % 256) with
               | .error e => .error e
               | .ok outb => wrByte cap outb ((o.buf.length - 269) % 256)
             else .ok out2) with
          | .error e => .error e
          | .ok out3 =>
            match wrBytes cap out3 o.buf with
            | .error e => .error e
            | .ok out4 => build_opts_loop cap out4 (o.num % 65536) rest

/-- coap_build (src/coap.c lines 288-356): check the header+token fits,
write the raw header and the token (token length mismatch is
UNSUPPORTED), emit the options, then the payload marker and payload
after the capacity check of line 344.  Returns the written bytes and the
value stored into *buflen. -/
def coap_build (cap : Nat) (pkt : coap_packet_t) :
    Except PErr (List Nat × Nat) :=
  if cap < 4 + pkt.hdr.tkl then .error (.code .BUFFER_TOO_SMALL)
  else
    match wrBytes cap []
        [(pkt.hdr.ver % 4) * 64 + (pkt.hdr.t % 4) * 16 + pkt.hdr.tkl % 16,
         pkt.hdr.code % 256, (pkt.hdr.id / 256) % 256, pkt.hdr.id % 256] with
    | .error e => .error e
    | .ok out0 =>
      if 0 < pkt.hdr.tkl ∧ pkt.hdr.tkl ≠ pkt.tok.length then
        .error (.code .UNSUPPORTED)
      else
        match (if 0 < pkt.hdr.tkl then wrBytes cap out0 pkt.tok
               else .ok out0) with
        | .error e => .error e
        | .ok out1 =>
          match build_opts_loop cap out1 0 pkt.opts with
          | .error e => .error e
          | .ok out2 =>
            let opts_len := out2.length - 4
            let plen := (pkt.payload.getD []).length
            if 0 < plen then
              if cap < 4 + 1 + plen + opts_len then
                .error (.code .BUFFER_TOO_SMALL)
              else
                match wrByte cap out2 0xFF with
                | .error e => .error e
                | .ok out3 =>
                  match wrBytes cap out3 (pkt.payload.getD []) with
                  | .error e => .error e
                  | .ok out4 => .ok (out4, 4 + opts_len + 1 + plen)
            else .ok (out2, opts_len + 4)

/-- A request handler (coap_endpoint_func of the missing coap.h,
modelled from the spec, section 4.5): it receives the scratch buffer,
the request, the response packet under construction and the message id,
and returns its status code together with the mutated response packet
and scratch buffer. -/
abbrev coap_handler : Type :=
  List Nat → coap_packet_t → coap_packet_t → Nat → Int × coap_packet_t × List Nat

/-- An endpoint table entry (coap_endpoint_t of the missing coap.h,
modelled from the spec, sections 3 and 4.5): method code, URI path as a
list of segments (each the byte list of the C string), content type tag
and the handler.  The C table is terminated by a NULL-handler sentinel;
the embedding models the entries before the sentinel as a list. -/
structure coap_endpoint_t where
  method : Nat
  path : List (List Nat)
  ct : Nat
  handler : coap_handler

/-- coap_make_response (src/coap.c lines 358-387), with the in-place
mutation of the output packet made explicit: the function returns its
status together with the updated packet and scratch buffer.  On the
scratch-too-small early return the C has already set the header, token
and option count and pointed opts[0].buf.p at the scratch buffer without
setting its length; that half-set view is materialized as the first
(old length) bytes of scratch.  The payload is set only after the
check. -/
def coap_make_response (scratch : List Nat) (pkt : coap_packet_t)
    (content : Option (List Nat)) (msgid : Nat) (tok : Option (List Nat))
    (rspcode : Nat) (content_type : Nat) :
    Except CoapErr Unit × coap_packet_t × List Nat :=
  let tkl := match tok with | some t => t.length | none => 0
  let tok2 := match tok with | some t => t | none => pkt.tok
  let hdr2 : coap_header_t :=
    { ver := 1, t := COAP_TYPE_ACK, tkl := tkl, code := rspcode, id := msgid }
  if scratch.length < 2 then
    (.error .BUFFER_TOO_SMALL,
     { pkt with hdr := hdr2, tok := tok2,
                opts := [{ num := COAP_OPTION_CONTENT_FORMAT,
                           buf := scratch.take
                             (pkt.opts.headD { num := 0, buf := [] }).buf.length }] },
     scratch)
  else
    let hi := (content_type % 65536) / 256
    let lo := content_type % 256
    (.ok (),
     { hdr := hdr2, tok := tok2,
       opts := [{ num := COAP_OPTION_CONTENT_FORMAT, buf := [hi, lo] }],
       payload := content },
     (scratch.set 0 hi).set 1 lo)

/-- The endpoint-matching loop of coap_handle_request (src/coap.c lines
396-411): walk the table; on the first entry whose method equals the
request code, whose path segment count equals the URI-Path run length
and whose segments are byte-equal, invoke its handler.  none if no entry
fires. -/
def dispatch_loop (scratch : List Nat) (inpkt outpkt : coap_packet_t)
    (run : List coap_option_t) :
    List coap_endpoint_t → Option (Int × coap_packet_t × List Nat)
  | [] => none
  | ep :: rest =>
    if ep.method = inpkt.hdr.code ∧ run.length = ep.path.length ∧
        run.map (fun o => o.buf) = ep.path then
      some (ep.handler scratch inpkt outpkt inpkt.hdr.id)
    else dispatch_loop scratch inpkt outpkt run rest

/-- coap_handle_request (src/coap.c lines 389-415): extract the URI-Path
run; the for-loop condition is (ep->handler && opt), so with no URI-Path
options the table is not scanned at all.  If no handler fires, synthesize
the 4.04 Not Found ACK via coap_make_response (ignoring its status) and
return COAP_SUCCESS (0). -/
def coap_handle_request (endpoints : List coap_endpoint_t)
    (scratch : List Nat) (inpkt outpkt : coap_packet_t) :
    Int × coap_packet_t × List Nat :=
  let run := _find_options COAP_OPTION_URI_PATH inpkt.opts
  let hit := if run = [] then none
             else dispatch_loop scratch inpkt outpkt run endpoints
  match hit with
  | some r => r
  | none =>
    let r := coap_make_response scratch outpkt none inpkt.hdr.id
               (some inpkt.tok) COAP_RSPCODE_NOT_FOUND COAP_CONTENTTYPE_NONE
    (0, r.2)

/-- The matching notion of the dispatcher, as the claims state it: equal
method code, equal URI-Path segment count and byte-equal segments
(map equality of the URI-Path run against the endpoint path implies the
count equality). -/
def epMatches (req : coap_packet_t) (ep : coap_endpoint_t) : Prop :=
  ep.method = req.hdr.code ∧
  (_find_options COAP_OPTION_URI_PATH req.opts).map (fun o => o.buf) = ep.path

instance (req : coap_packet_t) (ep : coap_endpoint_t) :
    Decidable (epMatches req ep) := by
  unfold epMatches; exact inferInstance

/-- The parse error kinds the spec allows (section 8, bounded parse). -/
def GoodErr (e : CoapErr) : Prop :=
  e = .HEADER_TOO_SHORT ∨ e = .VERSION_NOT_1 ∨ e = .TOKEN_TOO_SHORT ∨
  e = .OPTION_TOO_SHORT_FOR_HEADER ∨ e = .OPTION_DELTA_INVALID ∨
  e = .OPTION_LEN_INVALID ∨ e = .OPTION_TOO_BIG ∨
  e = .OPTION_OVERRUNS_PACKET

/-- A parse outcome is good when it succeeds or fails with one of the
defined parse error kinds; an out-of-bounds access is never good. -/
def GoodRes {α : Type} : Except PErr α → Prop
  | .ok _ => True
  | .error (.code e) => GoodErr e
  | .error .oob => False

/-- Concrete request with no URI-Path options (dispatch counterexample
input). -/
def c7x_req : coap_packet_t :=
  { hdr := { ver := 1, t := 0, tkl := 0, code := 1, id := 5 },
    tok := [], opts := [], payload := none }

/-- Blank output packet for the dispatch counterexample. -/
def c7x_out : coap_packet_t :=
  { hdr := { ver := 0, t := 0, tkl := 0, code := 0, id := 0 },
    tok := [], opts := [], payload := none }

/-- Root endpoint (empty path) whose handler returns 7. -/
def c7x_ep1 : coap_endpoint_t :=
  { method := 1, path := [], ct := 0, handler := fun s _ o _ => (7, o, s) }

/-- Root endpoint (empty path) whose handler returns 9. -/
def c7x_ep2 : coap_endpoint_t :=
  { method := 1, path := [], ct := 0, handler := fun s _ o _ => (9, o, s) }

/-- Request with one URI-Path segment, for the dispatch witnesses. -/
def c7w_req : coap_packet_t :=
  { hdr := { ver := 1, t := 0, tkl := 0, code := 1, id := 5 },
    tok := [], opts := [{ num := 11, buf := [97] }], payload := none }

/-- Endpoint for path [97] whose handler returns 7. -/
def c7w_ep1 : coap_endpoint_t :=
  { method := 1, path := [[97]], ct := 0, handler := fun s _ o _ => (7, o, s) }

/-- Endpoint for path [97] whose handler returns 9. -/
def c7w_ep2 : coap_endpoint_t :=
  { method := 1, path := [[97]], ct := 0, handler := fun s _ o _ => (9, o, s) }

theorem readSlice_ok (bs : List Nat) (start len : Nat)
    (h : start + len ≤ bs.length) :
    readSlice bs start len = .ok ((bs.drop start).take len) := by
  unfold readSlice
  exact if_pos h

theorem goodErr_of4 {e : CoapErr}
    (h : e = .OPTION_TOO_SHORT_FOR_HEADER ∨ e = .OPTION_DELTA_INVALID ∨
         e = .OPTION_LEN_INVALID ∨ e = .OPTION_TOO_BIG) : GoodErr e := by
  rcases h with h | h | h | h <;> subst h <;> simp [GoodErr]

/-- Each nibble-extension decode either fails with a defined option error
or succeeds, keeps the cursor in bounds, and never reads outside the
buffer. -/
theorem nibble_ext_cases (bs : List Nat) (nib off : Nat) (e15 : CoapErr)
    (hoff : off + 1 ≤ bs.length) :
    (∃ e, _nibble_ext bs nib off e15 = .error (.code e) ∧
        (e = .OPTION_TOO_SHORT_FOR_HEADER ∨ e = e15)) ∨
    (∃ v off2, _nibble_ext bs nib off e15 = .ok (v, off2) ∧
        off ≤ off2 ∧ off2 + 1 ≤ bs.length) := by
  unfold _nibble_ext
  split
  · split
    · exact Or.inl ⟨_, rfl, Or.inl rfl⟩
    · next hlen =>
      have hx : off + 1 < bs.length := by omega
      rw [List.getElem?_eq_getElem hx]
      exact Or.inr ⟨_, _, rfl, by omega, by omega⟩
  · split
    · split
      · exact Or.inl ⟨_, rfl, Or.inl rfl⟩
      · next hlen =>
        have hx1 : off + 1 < bs.length := by omega
        have hx2 : off + 2 < bs.length := by omega
        rw [List.getElem?_eq_getElem hx1, List.getElem?_eq_getElem hx2]
        exact Or.inr ⟨_, _, rfl, by omega, by omega⟩
    · split
      · exact Or.inl ⟨e15, rfl, Or.inr rfl⟩
      · exact Or.inr ⟨nib, off, rfl, Nat.le_refl _, hoff⟩

/-- _parse_option either fails with one of the four option error kinds or
succeeds; on success the new option's number is at least the incoming
running delta and the updated accumulator is that number mod 65536.
In particular no access is out of bounds. -/
theorem parse_option_cases (rd : Nat) (bs : List Nat) :
    (∃ e, _parse_option rd bs = .error (.code e) ∧
        (e = .OPTION_TOO_SHORT_FOR_HEADER ∨ e = .OPTION_DELTA_INVALID ∨
         e = .OPTION_LEN_INVALID ∨ e = .OPTION_TOO_BIG)) ∨
    (∃ o rd2 c, _parse_option rd bs = .ok (o, rd2, c) ∧
        rd ≤ o.num ∧ rd2 = o.num % 65536) := by
  unfold _parse_option
  split
  · exact Or.inl ⟨_, rfl, Or.inl rfl⟩
  · next hlen =>
    have hx : 0 < bs.length := by omega
    simp only [List.getElem?_eq_getElem hx]
    rcases nibble_ext_cases bs ((bs[0] % 256) / 16) 0 .OPTION_DELTA_INVALID
        (by omega) with ⟨e, he, hor⟩ | ⟨v, off1, hok, hle1, hb1⟩
    · rw [he]
      refine Or.inl ⟨e, rfl, ?_⟩
      rcases hor with h | h
      · exact Or.inl h
      · exact Or.inr (Or.inl h)
    · simp only [hok]
      rcases nibble_ext_cases bs ((bs[0] % 256) % 16) off1 .OPTION_LEN_INVALID
          hb1 with ⟨e, he2, hor2⟩ | ⟨w, off2, hok2, hle2, hb2⟩
      · rw [he2]
        refine Or.inl ⟨e, rfl, ?_⟩
        rcases hor2 with h | h
        · exact Or.inl h
        · exact Or.inr (Or.inr (Or.inl h))
      · simp only [hok2]
        split
        · exact Or.inl ⟨_, rfl, Or.inr (Or.inr (Or.inr rfl))⟩
        · next hbig =>
          rw [readSlice_ok bs (off2 + 1) w (by omega)]
          exact Or.inr ⟨_, _, _, rfl, Nat.le_add_left rd v,
            by rw [Nat.add_comm]⟩

/-- The option loop never hits an out-of-bounds access and only ever
fails with a defined option error. -/
theorem parse_opts_loop_good (budget : Nat) :
    ∀ (rd : Nat) (bs : List Nat), GoodRes (parse_opts_loop budget rd bs) := by
  induction budget with
  | zero => intro rd bs; simp [parse_opts_loop, GoodRes]
  | succ k ih =>
    intro rd bs
    cases bs with
    | nil => simp [parse_opts_loop, GoodRes]
    | cons b rest =>
      simp only [parse_opts_loop]
      split
      · simp [GoodRes]
      · rcases parse_option_cases rd (b :: rest) with ⟨e, he, hor⟩ |
          ⟨o, rd2, c, hok, _, _⟩
        · rw [he]
          exact goodErr_of4 hor
        · rw [hok]
          have h2 := ih rd2 ((b :: rest).drop c)
          cases hl : parse_opts_loop k rd2 ((b :: rest).drop c) with
          | error e =>
            rw [hl] at h2
            simp only [hl]
            exact h2
          | ok pr =>
            obtain ⟨os, rem⟩ := pr
            simp only [hl]
            simp [GoodRes]

/-- _parse_header either fails with HeaderTooShort or VersionNot1, or
succeeds; it never reads outside the buffer. -/
theorem parse_header_cases (bs : List Nat) :
    (∃ e, _parse_header bs = .error (.code e) ∧
        (e = .HEADER_TOO_SHORT ∨ e = .VERSION_NOT_1)) ∨
    (∃ hdr, _parse_header bs = .ok hdr) := by
  unfold _parse_header
  split
  · exact Or.inl ⟨_, rfl, Or.inl rfl⟩
  · next hlen =>
    have h0 : 0 < bs.length := by omega
    have h1 : 1 < bs.length := by omega
    have h2 : 2 < bs.length := by omega
    have h3 : 3 < bs.length := by omega
    simp only [List.getElem?_eq_getElem h0, List.getElem?_eq_getElem h1,
        List.getElem?_eq_getElem h2, List.getElem?_eq_getElem h3]
    split
    · exact Or.inl ⟨_, rfl, Or.inr rfl⟩
    · exact Or.inr ⟨_, rfl⟩

/-- _parse_token either fails with TokenTooShort or succeeds; it never
reads outside the buffer. -/
theorem parse_token_cases (hdr : coap_header_t) (bs : List Nat) :
    _parse_token hdr bs = .error (.code .TOKEN_TOO_SHORT) ∨
    (∃ t, _parse_token hdr bs = .ok t) := by
  unfold _parse_token
  split
  · exact Or.inl rfl
  · next hcond =>
    split
    · exact Or.inr ⟨_, rfl⟩
    · refine Or.inr ⟨_, readSlice_ok bs 4 hdr.tkl ?_⟩
      omega

/-- _parse_options_payload is total and in-bounds. -/
theorem parse_options_payload_good (hdr : coap_header_t) (bs : List Nat) :
    GoodRes (_parse_options_payload hdr bs) := by
  unfold _parse_options_payload
  split
  · simp [GoodRes, GoodErr]
  · have hg := parse_opts_loop_good MAXOPT 0 (bs.drop (4 + hdr.tkl))
    cases hl : parse_opts_loop MAXOPT 0 (bs.drop (4 + hdr.tkl)) with
    | error e =>
      rw [hl] at hg
      simp only [hl]
      cases e with
      | oob => exact absurd hg (by simp [GoodRes])
      | code e2 => simpa [GoodRes] using hg
    | ok pr =>
      obtain ⟨os, rem⟩ := pr
      simp only [hl]
      simp [GoodRes]

/-- coap_parse is total and in-bounds on every input: it succeeds or
fails with one of the defined parse error kinds, never with an
out-of-bounds access. -/
theorem coap_parse_good (bs : List Nat) : GoodRes (coap_parse bs) := by
  unfold coap_parse
  rcases parse_header_cases bs with ⟨e, he, hor⟩ | ⟨hdr, hh⟩
  · rw [he]
    rcases hor with h | h <;> subst h <;> simp [GoodRes, GoodErr]
  · simp only [hh]
    rcases parse_token_cases hdr bs with ht | ⟨t, ht⟩
    · simp only [ht]
      simp [GoodRes, GoodErr]
    · simp only [ht]
      have hg := parse_options_payload_good hdr bs
      cases hp : _parse_options_payload hdr bs with
      | error e =>
        rw [hp] at hg
        cases e with
        | oob => exact absurd hg (by simp [GoodRes])
        | code e2 => simpa [GoodRes] using hg
      | ok pr =>
        obtain ⟨os, pl⟩ := pr
        exact trivial

/-- C3: for every byte buffer, coap_parse either succeeds or returns one
of the eight defined parse error kinds; in particular it never performs
an out-of-bounds access (which the embedding would surface as the
distinct oob outcome). -/
theorem coap_parse_bounded (bs : List Nat) :
    (∃ pkt, coap_parse bs = .ok pkt) ∨
    (∃ e, coap_parse bs = .error (.code e) ∧
        (e = .HEADER_TOO_SHORT ∨ e = .VERSION_NOT_1 ∨ e = .TOKEN_TOO_SHORT ∨
         e = .OPTION_TOO_SHORT_FOR_HEADER ∨ e = .OPTION_DELTA_INVALID ∨
         e = .OPTION_LEN_INVALID ∨ e = .OPTION_TOO_BIG ∨
         e = .OPTION_OVERRUNS_PACKET)) := by
  have hg := coap_parse_good bs
  cases h : coap_parse bs with
  | ok p => exact Or.inl ⟨p, rfl⟩
  | error pe =>
    rw [h] at hg
    cases pe with
    | oob => exact absurd hg (by simp [GoodRes])
    | code e => exact Or.inr ⟨e, rfl, by simpa [GoodRes, GoodErr] using hg⟩

theorem parse_token_le (hdr : coap_header_t) (bs : List Nat) (tok : List Nat)
    (h : _parse_token hdr bs = .ok tok) : 4 + hdr.tkl ≤ bs.length := by
  unfold _parse_token at h
  split at h
  · exact absurd h (by simp)
  · next hcond =>
    push_neg at hcond
    omega

/-- Successful header, token and option-loop runs assemble into the
successful coap_parse result. -/
theorem coap_parse_of_parts (bs : List Nat) (hdr : coap_header_t)
    (tok : List Nat) (os : List coap_option_t) (rem : List Nat)
    (h1 : _parse_header bs = .ok hdr) (h2 : _parse_token hdr bs = .ok tok)
    (h3 : parse_opts_loop MAXOPT 0 (bs.drop (4 + hdr.tkl)) = .ok (os, rem)) :
    coap_parse bs = .ok { hdr := hdr, tok := tok, opts := os,
                          payload := payload_of rem } := by
  have hle : 4 + hdr.tkl ≤ bs.length := parse_token_le hdr bs tok h2
  have hne : ¬ (4 + hdr.tkl > bs.length) := by omega
  unfold coap_parse _parse_options_payload
  simp only [h1, h2, if_neg hne, h3]

/-- A successful coap_parse determines a successful option-loop run on
the region after header and token, producing exactly the stored
options. -/
theorem coap_parse_ok_loop (bs : List Nat) (pkt : coap_packet_t)
    (h : coap_parse bs = .ok pkt) :
    ∃ rem, parse_opts_loop MAXOPT 0 (bs.drop (4 + pkt.hdr.tkl)) =
      .ok (pkt.opts, rem) := by
  unfold coap_parse at h
  cases hh : _parse_header bs with
  | error e => rw [hh] at h; simp at h
  | ok hdr =>
    simp only [hh] at h
    cases ht : _parse_token hdr bs with
    | error e => simp only [ht] at h; exact absurd h (by simp)
    | ok tok =>
      simp only [ht] at h
      cases hp : _parse_options_payload hdr bs with
      | error e => simp only [hp] at h; exact absurd h (by simp)
      | ok pr =>
        obtain ⟨os, pl⟩ := pr
        simp only [hp] at h
        simp only [Except.ok.injEq] at h
        subst h
        unfold _parse_options_payload at hp
        split at hp
        · exact absurd hp (by simp)
        · cases hl : parse_opts_loop MAXOPT 0 (bs.drop (4 + hdr.tkl)) with
          | error e => rw [hl] at hp; simp at hp
          | ok pr2 =>
            obtain ⟨os2, rem2⟩ := pr2
            simp only [hl] at hp
            simp only [Except.ok.injEq, Prod.mk.injEq] at hp
            obtain ⟨ho, hpl⟩ := hp
            subst ho
            exact ⟨rem2, rfl⟩

/-- Inversion of one successful iteration of the option loop. -/
theorem parse_opts_loop_cons (k rd : Nat) (bs : List Nat)
    (o : coap_option_t) (os : List coap_option_t) (rem : List Nat)
    (h : parse_opts_loop (k + 1) rd bs = .ok (o :: os, rem)) :
    ∃ b rest rd2 c, bs = b :: rest ∧ ¬ b % 256 = 255 ∧
      _parse_option rd bs = .ok (o, rd2, c) ∧
      parse_opts_loop k rd2 (bs.drop c) = .ok (os, rem) := by
  cases bs with
  | nil => simp [parse_opts_loop] at h
  | cons b rest =>
    simp only [parse_opts_loop] at h
    split at h
    · simp at h
    · next hb =>
      cases hpo : _parse_option rd (b :: rest) with
      | error e =>
        simp only [hpo] at h
        exact absurd h (by simp)
      | ok trip =>
        obtain ⟨o2, rd2, c⟩ := trip
        simp only [hpo] at h
        cases hlp : parse_opts_loop k rd2 ((b :: rest).drop c) with
        | error e =>
          simp only [hlp] at h
          exact absurd h (by simp)
        | ok pr =>
          obtain ⟨os2, rem2⟩ := pr
          simp only [hlp] at h
          simp only [Except.ok.injEq, Prod.mk.injEq, List.cons.injEq] at h
          obtain ⟨⟨ho, hos⟩, hrem⟩ := h
          subst ho; subst hos; subst hrem
          exact ⟨b, rest, rd2, c, rfl, hb, rfl, hlp⟩

/-- Truncation: a loop run that yields more than j options, when re-run
with budget j, yields exactly the first j options, and the bytes at the
final cursor then start with the next option's header byte, which is not
the payload marker. -/
theorem parse_opts_loop_take (j : Nat) :
    ∀ (k rd : Nat) (bs : List Nat) (os : List coap_option_t)
      (rem : List Nat),
      parse_opts_loop k rd bs = .ok (os, rem) → j < os.length →
      ∃ b rest, parse_opts_loop j rd bs = .ok (os.take j, b :: rest) ∧
        ¬ b % 256 = 255 := by
  induction j with
  | zero =>
    intro k rd bs os rem h hlen
    cases os with
    | nil => simp at hlen
    | cons o os2 =>
      cases k with
      | zero =>
        simp only [parse_opts_loop] at h
        simp at h
      | succ k2 =>
        obtain ⟨b, rest, rd2, c, hbs, hb, hpo, hlp⟩ :=
          parse_opts_loop_cons k2 rd bs o os2 rem h
        subst hbs
        exact ⟨b, rest, by simp [parse_opts_loop], hb⟩
  | succ j ih =>
    intro k rd bs os rem h hlen
    cases os with
    | nil => simp at hlen
    | cons o os2 =>
      cases k with
      | zero =>
        simp only [parse_opts_loop] at h
        simp at h
      | succ k2 =>
        obtain ⟨b, rest, rd2, c, hbs, hb, hpo, hlp⟩ :=
          parse_opts_loop_cons k2 rd bs o os2 rem h
        have hlen2 : j < os2.length := by simpa using hlen
        obtain ⟨b2, rest2, hlp2, hb2⟩ :=
          ih k2 rd2 (bs.drop c) os2 rem hlp hlen2
        refine ⟨b2, rest2, ?_, hb2⟩
        subst hbs
        simp only [parse_opts_loop, if_neg hb, hpo, hlp2]
        simp

/-- C9: a buffer holding a valid header and token followed by more than
MAXOPT well-formed options (formally: the option loop with a budget
large enough parses the whole region into more than MAXOPT options)
parses successfully, stores exactly the first MAXOPT options in order,
sets numopts to MAXOPT and silently drops the excess. -/
theorem coap_parse_truncates_excess_options (bs : List Nat)
    (hdr : coap_header_t) (tok : List Nat) (allOpts : List coap_option_t)
    (k : Nat)
    (h1 : _parse_header bs = .ok hdr)
    (h2 : _parse_token hdr bs = .ok tok)
    (h3 : parse_opts_loop k 0 (bs.drop (4 + hdr.tkl)) = .ok (allOpts, []))
    (h4 : MAXOPT < allOpts.length) :
    coap_parse bs = .ok { hdr := hdr, tok := tok,
                          opts := allOpts.take MAXOPT, payload := none } ∧
    (allOpts.take MAXOPT).length = MAXOPT := by
  obtain ⟨b, rest, hloop, hb⟩ :=
    parse_opts_loop_take MAXOPT k 0 (bs.drop (4 + hdr.tkl)) allOpts [] h3 h4
  have h := coap_parse_of_parts bs hdr tok (allOpts.take MAXOPT) (b :: rest)
    h1 h2 hloop
  constructor
  · rw [h]
    cases rest with
    | nil => simp [payload_of]
    | cons r2 t2 => simp [payload_of, hb]
  · simp only [List.length_take]
    omega

/-- C10: when the option region parses cleanly and the loop stops on a
bare trailing 0xFF payload marker (the final byte of the buffer),
coap_parse succeeds and reports a NULL, length-0 payload; the bare
marker is accepted rather than rejected. -/
theorem coap_parse_bare_payload_marker (bs : List Nat)
    (hdr : coap_header_t) (tok : List Nat) (os : List coap_option_t)
    (h1 : _parse_header bs = .ok hdr)
    (h2 : _parse_token hdr bs = .ok tok)
    (h3 : parse_opts_loop MAXOPT 0 (bs.drop (4 + hdr.tkl)) =
      .ok (os, [0xFF])) :
    coap_parse bs = .ok { hdr := hdr, tok := tok, opts := os,
                          payload := none } := by
  have h := coap_parse_of_parts bs hdr tok os [0xFF] h1 h2 h3
  simpa [payload_of] using h

/-- The option loop preserves sortedness as long as the parsed numbers
stay below 2^16: every produced number is at least the incoming running
delta, and the numbers are non-decreasing. -/
theorem parse_opts_loop_sorted (budget : Nat) :
    ∀ (rd : Nat) (bs : List Nat) (os : List coap_option_t) (rem : List Nat),
      parse_opts_loop budget rd bs = .ok (os, rem) →
      (∀ o ∈ os, o.num < 65536) →
      List.Chain' (fun a b => a ≤ b) (os.map fun o => o.num) ∧
      (∀ o, os.head? = some o → rd ≤ o.num) := by
  induction budget with
  | zero =>
    intro rd bs os rem h hn
    simp only [parse_opts_loop] at h
    simp only [Except.ok.injEq, Prod.mk.injEq] at h
    obtain ⟨h1, h2⟩ := h
    subst h1
    exact ⟨by simp, by simp⟩
  | succ k ih =>
    intro rd bs os rem h hn
    cases bs with
    | nil =>
      simp only [parse_opts_loop] at h
      simp only [Except.ok.injEq, Prod.mk.injEq] at h
      obtain ⟨h1, h2⟩ := h
      subst h1
      exact ⟨by simp, by simp⟩
    | cons b rest =>
      by_cases hb : b % 256 = 255
      · simp only [parse_opts_loop, if_pos hb] at h
        simp only [Except.ok.injEq, Prod.mk.injEq] at h
        obtain ⟨h1, h2⟩ := h
        subst h1
        exact ⟨by simp, by simp⟩
      · simp only [parse_opts_loop, if_neg hb] at h
        cases hpo : _parse_option rd (b :: rest) with
        | error e =>
          simp only [hpo] at h
          exact absurd h (by simp)
        | ok trip =>
          obtain ⟨o, rd2, c⟩ := trip
          simp only [hpo] at h
          cases hlp : parse_opts_loop k rd2 ((b :: rest).drop c) with
          | error e =>
            simp only [hlp] at h
            exact absurd h (by simp)
          | ok pr =>
            obtain ⟨os2, rem2⟩ := pr
            simp only [hlp] at h
            simp only [Except.ok.injEq, Prod.mk.injEq] at h
            obtain ⟨h1, h2⟩ := h
            subst h1
            rcases parse_option_cases rd (b :: rest) with ⟨e, he, _⟩ |
              ⟨o3, rd3, c3, hok, hle, hrd⟩
            · rw [he] at hpo
              exact absurd hpo (by simp)
            · rw [hpo] at hok
              simp only [Except.ok.injEq, Prod.mk.injEq] at hok
              obtain ⟨ho3, hrd3, hc3⟩ := hok
              subst ho3; subst hrd3
              have honum : o.num < 65536 := hn o (by simp)
              have hrd2 : rd2 = o.num := by
                rw [hrd, Nat.mod_eq_of_lt honum]
              obtain ⟨hch2, hhd2⟩ := ih rd2 ((b :: rest).drop c) os2 rem2 hlp
                (fun x hx => hn x (by simp [hx]))
              constructor
              · simp only [List.map_cons]
                rw [List.chain'_cons']
                refine ⟨?_, hch2⟩
                intro y hy
                rw [List.head?_map] at hy
                rcases Option.map_eq_some'.mp hy with ⟨o4, ho4, hy4⟩
                have := hhd2 o4 ho4
                omega
              · intro o5 ho5
                simp only [List.head?_cons, Option.some.injEq] at ho5
                subst ho5
                exact hle

/-- C5 (amended): after a successful coap_parse in which every stored
option number is below 2^16 (so that the 16-bit running-delta
accumulator never wraps), the stored option numbers are non-decreasing,
including for inputs using the 1- and 2-byte delta extensions. -/
theorem coap_parse_sorted_options (bs : List Nat) (pkt : coap_packet_t)
    (h : coap_parse bs = .ok pkt) (hb : ∀ o ∈ pkt.opts, o.num < 65536) :
    List.Chain' (fun a b => a ≤ b) (pkt.opts.map fun o => o.num) := by
  obtain ⟨rem, hloop⟩ := coap_parse_ok_loop bs pkt h
  exact (parse_opts_loop_sorted MAXOPT 0 _ pkt.opts rem hloop hb).1

/-- C8: coap_parse applied to the 4-byte input 40 01 00 01 succeeds with
ver = 1, t = 0, tkl = 0, code = 0x01, id = 0x0001, no options and an
empty payload. -/
theorem coap_parse_minimal_get :
    coap_parse [0x40, 0x01, 0x00, 0x01] =
      .ok { hdr := { ver := 1, t := 0, tkl := 0, code := 1, id := 1 },
            tok := [], opts := [], payload := none } := by
  decide

set_option maxRecDepth 40000 in
/-- C1 (code bug): round-trip fails inside the claimed encodable ranges.
For the packet P with one option whose value is 269 bytes long (ver 1,
tkl 0, option number 0, everything fitting the 300-byte output buffer),
coap_build succeeds, but its length-extension bytes after the 0x0E
option header are (269 >> 8) = 1 and ((269-269) & 0xFF) = 0 instead of
the symmetric ((269-269) >> 8) = 0; coap_parse on the built bytes then
reconstructs value length 525 and fails with OPTION_TOO_BIG, so
parse (build P) is not P. -/
theorem roundtrip_fails_at_len269 :
    coap_build 300
        { hdr := { ver := 1, t := 0, tkl := 0, code := 1, id := 1 },
          tok := [], opts := [{ num := 0, buf := List.replicate 269 0 }],
          payload := none } =
      .ok ([0x40, 1, 0, 1, 0x0E, 1, 0] ++ List.replicate 269 0, 276) ∧
    coap_parse ([0x40, 1, 0, 1, 0x0E, 1, 0] ++ List.replicate 269 0) =
      .error (.code .OPTION_TOO_BIG) ∧
    (Except.error (PErr.code CoapErr.OPTION_TOO_BIG) ≠
      (Except.ok
        { hdr := { ver := 1, t := 0, tkl := 0, code := 1, id := 1 },
          tok := [], opts := [{ num := 0, buf := List.replicate 269 0 }],
          payload := none } : Except PErr coap_packet_t)) :=
  ⟨by decide, by decide, by decide⟩

set_option maxRecDepth 40000 in
/-- C2 (code bug): for value length L = 269 the builder emits the
length-extension bytes (L >> 8) = 1 and ((L-269) & 0xFF) = 0 after the
option header byte 0x0E, not the claimed ((L-269) >> 8) = 0 and
((L-269) & 0xFF) = 0; the parser's reconstruction ((hi << 8) | lo) + 269
applied to those bytes yields 525, not 269 (shown on a buffer long
enough for the mis-read length). -/
theorem build_len_ext_asymmetric :
    coap_build 300
        { hdr := { ver := 1, t := 0, tkl := 0, code := 1, id := 1 },
          tok := [], opts := [{ num := 0, buf := List.replicate 269 0 }],
          payload := none } =
      .ok ([0x40, 1, 0, 1, 0x0E, 269 / 256 % 256, (269 - 269) % 256] ++
             List.replicate 269 0, 276) ∧
    (269 : Nat) / 256 % 256 = 1 ∧ ((269 - 269 : Nat) / 256) % 256 = 0 ∧
    (1 : Nat) ≠ 0 ∧
    _parse_option 0 ([0x0E, 1, 0] ++ List.replicate 525 0) =
      .ok ({ num := 0, buf := List.replicate 525 0 }, 0, 528) ∧
    (525 : Nat) ≠ 269 :=
  ⟨by decide, by decide, by decide, by decide, by decide, by decide⟩

/-- C4 (code bug): the option-emission loop of coap_build never checks
the capacity before writing an option's bytes.  With a 4-byte buffer and
a packet holding one zero-length option, the header fills the buffer
exactly, the per-option check (p - buf) > *buflen does not fire (4 > 4
is false), and the option header byte is stored past the end of the
buffer instead of returning BUFFER_TOO_SMALL. -/
theorem build_overflows_instead_of_buffer_too_small :
    coap_build 4
        { hdr := { ver := 1, t := 0, tkl := 0, code := 1, id := 1 },
          tok := [], opts := [{ num := 0, buf := [] }], payload := none } =
      .error .oob ∧
    (Except.error PErr.oob ≠
      (Except.error (PErr.code CoapErr.BUFFER_TOO_SMALL) :
        Except PErr (List Nat × Nat))) :=
  ⟨by decide, by decide⟩

/-- C5 (counterexample): a successful parse with non-monotone option
numbers.  Two options with 2-byte delta extensions of 65269 overflow the
16-bit running-delta accumulator (65269 + 65269 = 130538, stored as
65002), so the third option (delta 0) gets number 65002 < 130538: the
stored numbers are not non-decreasing. -/
theorem parse_sorted_options_counterexample :
    coap_parse [0x40, 1, 0, 1, 0xE0, 0xFD, 0xE8, 0xE0, 0xFD, 0xE8, 0x00] =
      .ok { hdr := { ver := 1, t := 0, tkl := 0, code := 1, id := 1 },
            tok := [],
            opts := [{ num := 65269, buf := [] }, { num := 130538, buf := [] },
                     { num := 65002, buf := [] }],
            payload := none } ∧
    ¬ List.Chain' (fun a b => a ≤ b)
        (([{ num := 65269, buf := [] }, { num := 130538, buf := [] },
           { num := 65002, buf := [] }] : List coap_option_t).map
          (fun o => o.num)) :=
  ⟨by decide, by simp [List.chain'_cons]⟩

/-- C6 (counterexample): with a scratch buffer shorter than 2 bytes,
coap_make_response returns early before setting the payload, and
coap_handle_request ignores that failure; for a request matched by no
endpoint (here the empty table) the output packet keeps its previous
non-empty payload instead of the claimed empty payload. -/
theorem handle_request_not_found_counterexample :
    (∀ ep ∈ ([] : List coap_endpoint_t),
      ¬ epMatches { hdr := { ver := 1, t := 0, tkl := 0, code := 1, id := 1 },
                    tok := [], opts := [], payload := none } ep) ∧
    (coap_handle_request [] []
        { hdr := { ver := 1, t := 0, tkl := 0, code := 1, id := 1 },
          tok := [], opts := [], payload := none }
        { hdr := { ver := 0, t := 0, tkl := 0, code := 0, id := 0 },
          tok := [], opts := [], payload := some [0x5A] }).2.1.payload ≠
      none :=
  ⟨by simp, by decide⟩

/-- C7 (counterexample): the dispatch loop runs only while the request
has at least one URI-Path option (the for-condition ep->handler && opt).
For a request with no URI-Path options, both root endpoints (empty path,
matching method) match in the claim's sense, yet coap_handle_request
falls through to the Not Found synthesis and returns 0, not the first
matching handler's return value 7. -/
theorem dispatch_first_match_counterexample :
    epMatches c7x_req c7x_ep1 ∧ epMatches c7x_req c7x_ep2 ∧
    (coap_handle_request [c7x_ep1, c7x_ep2] [0, 0] c7x_req c7x_out).1 = 0 ∧
    (c7x_ep1.handler [0, 0] c7x_req c7x_out c7x_req.hdr.id).1 = 7 ∧
    (0 : Int) ≠ 7 :=
  ⟨by decide, by decide, by rfl, by rfl, by decide⟩

/-- Witness of C5: a parse with the two URI-Path options of scenario S3
style input has non-decreasing numbers. -/
theorem coap_parse_sorted_options_witness :
    List.Chain' (fun a b => a ≤ b)
      ((({ hdr := { ver := 1, t := 0, tkl := 0, code := 1, id := 1 },
           tok := [],
           opts := [{ num := 11, buf := [0x61] }, { num := 11, buf := [0x62] }],
           payload := none } : coap_packet_t)).opts.map fun o => o.num) :=
  coap_parse_sorted_options [0x40, 1, 0, 1, 0xB1, 0x61, 0x01, 0x62]
    { hdr := { ver := 1, t := 0, tkl := 0, code := 1, id := 1 },
      tok := [],
      opts := [{ num := 11, buf := [0x61] }, { num := 11, buf := [0x62] }],
      payload := none }
    (by decide) (by decide)

/-- Witness of C9: a header followed by 17 zero-byte options (MAXOPT =
16) parses successfully into exactly the first 16 options. -/
theorem coap_parse_truncates_excess_options_witness :
    coap_parse ([0x40, 1, 0, 1] ++ List.replicate 17 0) =
      .ok { hdr := { ver := 1, t := 0, tkl := 0, code := 1, id := 1 },
            tok := [],
            opts := (List.replicate 17
              ({ num := 0, buf := [] } : coap_option_t)).take MAXOPT,
            payload := none } ∧
    ((List.replicate 17 ({ num := 0, buf := [] } : coap_option_t)).take
        MAXOPT).length = MAXOPT :=
  coap_parse_truncates_excess_options ([0x40, 1, 0, 1] ++ List.replicate 17 0)
    { ver := 1, t := 0, tkl := 0, code := 1, id := 1 } []
    (List.replicate 17 { num := 0, buf := [] }) 17
    (by decide) (by decide) (by decide) (by decide)

/-- Witness of C10: the buffer 40 01 00 01 FF (bare trailing payload
marker) parses successfully with a NULL payload. -/
theorem coap_parse_bare_payload_marker_witness :
    coap_parse [0x40, 1, 0, 1, 0xFF] =
      .ok { hdr := { ver := 1, t := 0, tkl := 0, code := 1, id := 1 },
            tok := [], opts := [], payload := none } :=
  coap_parse_bare_payload_marker [0x40, 1, 0, 1, 0xFF]
    { ver := 1, t := 0, tkl := 0, code := 1, id := 1 } [] []
    (by decide) (by decide) (by decide)

/-- If no endpoint of the table matches, the dispatch loop finds no
handler. -/
theorem dispatch_loop_none (scratch : List Nat) (inpkt outpkt : coap_packet_t)
    (eps : List coap_endpoint_t)
    (h : ∀ ep ∈ eps, ¬ epMatches inpkt ep) :
    dispatch_loop scratch inpkt outpkt
      (_find_options COAP_OPTION_URI_PATH inpkt.opts) eps = none := by
  induction eps with
  | nil => rfl
  | cons ep rest ih =>
    simp only [dispatch_loop]
    split
    · next hcond => exact absurd ⟨hcond.1, hcond.2.2⟩ (h ep (by simp))
    · exact ih (fun e he => h e (by simp [he]))

/-- C6 (amended): provided the scratch buffer holds at least the 2 bytes
coap_make_response stages, when no endpoint matches the request,
coap_handle_request returns COAP_SUCCESS and fills the output packet as
an ACK-type response with code 0x84 (4.04 Not Found), the request's
message id, the request's token echoed (tkl set to its length), a single
Content-Format option, and an empty (NULL) payload. -/
theorem handle_request_not_found (endpoints : List coap_endpoint_t)
    (scratch : List Nat) (inpkt outpkt : coap_packet_t)
    (hscr : 2 ≤ scratch.length)
    (hnone : ∀ ep ∈ endpoints, ¬ epMatches inpkt ep) :
    coap_handle_request endpoints scratch inpkt outpkt =
      (0, { hdr := { ver := 1, t := COAP_TYPE_ACK, tkl := inpkt.tok.length,
                     code := 0x84, id := inpkt.hdr.id },
            tok := inpkt.tok,
            opts := [{ num := COAP_OPTION_CONTENT_FORMAT,
                       buf := [0xFF, 0xFF] }],
            payload := none },
       (scratch.set 0 0xFF).set 1 0xFF) := by
  have hd := dispatch_loop_none scratch inpkt outpkt endpoints hnone
  have hnl : ¬ scratch.length < 2 := by omega
  unfold coap_handle_request coap_make_response
  simp only [hd, ite_self, if_neg hnl]
  rfl

/-- The dispatch loop fires the first matching endpoint of the table and
returns its handler's result. -/
theorem dispatch_loop_first (scratch : List Nat) (inpkt outpkt : coap_packet_t)
    (run : List coap_option_t) (post : List coap_endpoint_t)
    (ep : coap_endpoint_t) :
    ∀ pre : List coap_endpoint_t,
      (ep.method = inpkt.hdr.code ∧ run.length = ep.path.length ∧
        run.map (fun o => o.buf) = ep.path) →
      (∀ e ∈ pre,
        ¬ (e.method = inpkt.hdr.code ∧ run.length = e.path.length ∧
           run.map (fun o => o.buf) = e.path)) →
      dispatch_loop scratch inpkt outpkt run (pre ++ ep :: post) =
        some (ep.handler scratch inpkt outpkt inpkt.hdr.id) := by
  intro pre
  induction pre with
  | nil =>
    intro hm _
    simp only [List.nil_append, dispatch_loop]
    exact if_pos hm
  | cons e rest ih =>
    intro hm hpre
    simp only [List.cons_append, dispatch_loop]
    rw [if_neg (hpre e (by simp))]
    exact ih hm (fun x hx => hpre x (by simp [hx]))

/-- C7 (amended): provided the request carries at least one URI-Path
option, whenever two or more endpoints match (the first matching entry
ep after a prefix of non-matching entries, with another matching entry
somewhere after it), coap_handle_request invokes the handler of the
first matching endpoint in table order and returns its result. -/
theorem handle_request_first_match (pre post : List coap_endpoint_t)
    (ep : coap_endpoint_t) (scratch : List Nat)
    (inpkt outpkt : coap_packet_t)
    (hrun : _find_options COAP_OPTION_URI_PATH inpkt.opts ≠ [])
    (hmatch : epMatches inpkt ep)
    (hpre : ∀ e ∈ pre, ¬ epMatches inpkt e)
    (_hmore : ∃ e2 ∈ post, epMatches inpkt e2) :
    coap_handle_request (pre ++ ep :: post) scratch inpkt outpkt =
      ep.handler scratch inpkt outpkt inpkt.hdr.id := by
  have hd := dispatch_loop_first scratch inpkt outpkt
    (_find_options COAP_OPTION_URI_PATH inpkt.opts) post ep pre
    ⟨hmatch.1, by simpa using congrArg List.length hmatch.2, hmatch.2⟩
    (fun e he hc => hpre e he ⟨hc.1, hc.2.2⟩)
  unfold coap_handle_request
  simp only [hd, if_neg hrun]

/-- Witness of C6: a GET request with token AB matched by no endpoint of
a one-entry table yields the 4.04 ACK with the token echoed. -/
theorem handle_request_not_found_witness :
    coap_handle_request [c7x_ep1] [0, 0]
      { hdr := { ver := 1, t := 0, tkl := 1, code := 2, id := 9 },
        tok := [0xAB], opts := [], payload := none } c7x_out =
      (0, { hdr := { ver := 1, t := COAP_TYPE_ACK, tkl := 1,
                     code := 0x84, id := 9 },
            tok := [0xAB],
            opts := [{ num := COAP_OPTION_CONTENT_FORMAT,
                       buf := [0xFF, 0xFF] }],
            payload := none },
       (([0, 0] : List Nat).set 0 0xFF).set 1 0xFF) :=
  handle_request_not_found [c7x_ep1] [0, 0]
    { hdr := { ver := 1, t := 0, tkl := 1, code := 2, id := 9 },
      tok := [0xAB], opts := [], payload := none } c7x_out
    (by decide) (by decide)

/-- Witness of C7: with one URI-Path option and two endpoints matching
path [97], the first endpoint's handler (returning 7) is invoked. -/
theorem handle_request_first_match_witness :
    coap_handle_request ([] ++ c7w_ep1 :: [c7w_ep2]) [0, 0] c7w_req c7x_out =
      c7w_ep1.handler [0, 0] c7w_req c7x_out c7w_req.hdr.id :=
  handle_request_first_match [] [c7w_ep2] c7w_ep1 [0, 0] c7w_req c7x_out
    (by decide) (by decide) (by simp) ⟨c7w_ep2, by simp, by decide⟩

end YaCoAP
